import Mathlib

/-!
Shallow embedding of `pymeasure/instruments/baspi/sp1060.py` (driver for the
Basel LNHR DAC II), together with the protocol facts proved about it.

Conventions of the embedding:
* Python floats are modelled by exact rationals `ℚ`.  All quantities the
  development evaluates are far (≥ 0.19 code units) from the points where
  IEEE-754 double rounding of `(v + 10) * 838860.74` (absolute error below
  `4e-9`) could change a truncation result, so the rational model agrees
  with the floating-point source at every input used in a theorem.
* The line transport delivers *termination-stripped* lines in both
  directions (the instrument is constructed with `read_termination="\n"`,
  `write_termination="\n"`, and the framework strips/appends them), exactly
  as in the repository's own `expected_protocol` tests.
* Fallible operations (`int(s, 16)` raising `ValueError`, the handshake
  raising `RuntimeError`) return `Option`/`Except`.
-/

namespace SP1060

/-- Uppercase hexadecimal digit character of a value `n < 16`, as produced
by the Python format spec `X` (`0`–`9`, `A`–`F`). -/
def hexDigitChar (n : ℕ) : Char :=
  if n < 10 then Char.ofNat (48 + n) else Char.ofNat (55 + n)

/-- Value of one hexadecimal digit, case-insensitive, as accepted by Python
`int(s, 16)`. -/
def hexCharVal (c : Char) : Option ℕ :=
  if 48 ≤ c.toNat ∧ c.toNat ≤ 57 then some (c.toNat - 48)
  else if 65 ≤ c.toNat ∧ c.toNat ≤ 70 then some (c.toNat - 55)
  else if 97 ≤ c.toNat ∧ c.toNat ≤ 102 then some (c.toNat - 87)
  else none

/-- Minimal big-endian uppercase hex digit list of `n`, fuel-bounded
recursion (exact for every `fuel ≥ n`); empty for `n = 0`. -/
def natToHexAux : ℕ → ℕ → List Char
  | 0, _ => []
  | fuel + 1, n =>
    if n = 0 then [] else natToHexAux fuel (n / 16) ++ [hexDigitChar (n % 16)]

/-- Minimal uppercase hex digits of `n` (`"0"` for zero). -/
def natHexDigits (n : ℕ) : List Char :=
  if n = 0 then ['0'] else natToHexAux n n

/-- Python `f"{n:06X}"` for a natural number `n`: minimal uppercase hex
digits, left-padded with `0` to width 6. -/
def pyHex6 (n : ℕ) : String :=
  ⟨List.replicate (6 - (natHexDigits n).length) '0' ++ natHexDigits n⟩

/-- Digit-folding loop of Python `int(s, 16)`. -/
def parseHexAux : ℕ → List Char → Option ℕ
  | acc, [] => some acc
  | acc, c :: cs =>
    match hexCharVal c with
    | some d => parseHexAux (16 * acc + d) cs
    | none => none

/-- Python `int(s, 16)` on a plain (unsigned, unprefixed) string: the value
of a nonempty string of hex digits, `none` (a raised `ValueError`)
otherwise. -/
def parseHex (s : String) : Option ℕ :=
  if s.data = [] then none else parseHexAux 0 s.data

/-- Python `int(q)` on an exact rational: truncation toward zero. -/
def pyInt (q : ℚ) : ℤ := q.num.tdiv q.den

/-- The conversion constant `838860.74` exactly as written in the source
(both in `voltage_setpoint`'s `set_process` and in `voltage`'s `cast`). -/
def scale : ℚ := 838860.74

/-- `set_process` of `DACChannel.voltage_setpoint`:
`lambda v: f"{int((v + 10) * 838860.74):06X}"`.  (For every value the
driver can pass — the validator keeps `v ∈ [-10, 10]` — the integer is
nonnegative, so the `Int.toNat` below loses nothing.) -/
def encode (v : ℚ) : String :=
  pyHex6 (pyInt ((v + 10) * scale)).toNat

/-- `cast` of the `DACChannel.voltage` measurement:
`lambda v: float(int(v, 16) / (838860.74) - 10)`. -/
def decode (s : String) : Option ℚ :=
  (parseHex s).map (fun n : ℕ => (n : ℚ) / scale - 10)

/-- `DACChannel._from_24bit_hex` (the unused second decoder): reads the hex
string, reinterprets values `≥ 0x800000` as negative two's-complement, and
returns `(val / 8388607) * 10`. -/
def from_24bit_hex (s : String) : Option ℚ :=
  (parseHex s).map (fun n : ℕ =>
    (((if 0x800000 ≤ n then (n : ℤ) - 0x1000000 else (n : ℤ)) : ℚ) / 8388607) * 10)

/-- `DACChannel.check_set_errors`: reads one (termination-stripped) line
and raises `RuntimeError(f"Channel Error: {response}")` unless the line
equals the literal `"0\r\n"`; on success it returns the empty error list. -/
def check_set_errors (response : String) : Except String (List String) :=
  if response = "0\r\n" then Except.ok []
  else Except.error ("Channel Error: " ++ response)

/-- ASCII whitespace stripped by Python `str.strip()` (the device responses
are ASCII). -/
def isPySpace (c : Char) : Bool :=
  c = ' ' || c = '\t' || c = '\n' || c = '\r' || c = '\x0b' || c = '\x0c'

/-- Python `str.strip()` on the character list of a string. -/
def pyStrip (l : List Char) : List Char :=
  ((l.dropWhile isPySpace).reverse.dropWhile isPySpace).reverse

/-- Accumulator loop of Python `str.split(";")`. -/
def splitSemiAux : List Char → List Char → List (List Char)
  | acc, [] => [acc.reverse]
  | acc, c :: cs =>
    if c = ';' then acc.reverse :: splitSemiAux [] cs else splitSemiAux (c :: acc) cs

/-- Python `raw_response.split(";")`. -/
def splitSemi (l : List Char) : List (List Char) := splitSemiAux [] l

/-- The channel collection of `BaspiLNHRDACII`:
`Instrument.MultiChannelCreator(DACChannel, tuple(range(1, 13)))` stores the
twelve channels in a dictionary keyed `1..12` in insertion order, and
iterating the collection yields those keys in order. -/
def channel_ids : List ℕ := [1, 2, 3, 4, 5, 6, 7, 8, 9, 10, 11, 12]

/-- `[p.strip() == "ON" for p in raw_response.split(";") if p.strip()]`,
applied to an already-split field list: blank fields are discarded first,
then each surviving field is compared (after stripping) with `"ON"`. -/
def parse_status_fields (fields : List (List Char)) : List Bool :=
  (fields.filter (fun p => !(pyStrip p).isEmpty)).map (fun p => pyStrip p == "ON".data)

/-- `status_parts` of `BaspiLNHRDACII.enabled_channels`. -/
def status_parts (raw : String) : List Bool :=
  parse_status_fields (splitSemi raw.data)

/-- `BaspiLNHRDACII.enabled_channels` given the raw `"ALL S?"` response:
`[ch for ch, is_enabled in zip(self.channels, status_parts) if is_enabled]`. -/
def enabled_channels (raw : String) : List ℕ :=
  ((channel_ids.zip (status_parts raw)).filter (fun p => p.2)).map (fun p => p.1)

/-- Specification-side pairing of the bulk status response: every `;`-field
(whitespace-trimmed, including blank ones) is aligned positionally with the
channel indices `1..12`. -/
def positional_enabled (raw : String) : List ℕ :=
  ((channel_ids.zip ((splitSemi raw.data).map pyStrip)).filter
    (fun p => p.2 == "ON".data)).map (fun p => p.1)

/-- Modelled from the spec: `pymeasure.instruments.validators.truncated_range`
(framework code, not under `src/`).  The spec's data-model invariant reads
"VoltageSetpoint clamped/validated to [-10,10] before encoding" and the
codec precondition reads "caller must clamp/validate"; together with the
validator's own name this gives: a value inside the range passes through
unchanged, a value outside it is truncated to the nearest range bound (no
exception is raised). -/
def truncated_range (v lo hi : ℚ) : ℚ :=
  if v < lo then lo else if hi < v then hi else v

/-- Wire command of a `voltage_setpoint` write on channel `ch`: the pattern
`"{ch} %s"` filled with the `set_process`-encoded value. -/
def set_voltage_command (ch : ℕ) (v : ℚ) : String :=
  Nat.repr ch ++ " " ++ encode v

/-- Wire command of an `enabled` write: `"{ch} ON"` / `"{ch} OFF"` (the
`map_values` table `{True: "ON", False: "OFF"}`). -/
def set_enabled_command (ch : ℕ) (b : Bool) : String :=
  Nat.repr ch ++ " " ++ (if b then "ON" else "OFF")

/-- One transport event: a command line written by the driver, or one
response line read from the device (recording the line the device gave). -/
inductive Ev where
  | write : String → Ev
  | read : String → Ev
deriving DecidableEq

/-- Setting `voltage_setpoint = v` on channel `ch`: the validator
`truncated_range` runs first, the encoded command is written, then
`check_set_errors` reads exactly one line (`resp`, supplied by the device)
and raises unless it matches.  The `Option String` is the raised message,
if any. -/
def set_voltage_events (ch : ℕ) (v : ℚ) (resp : String) : List Ev × Option String :=
  let cmd := set_voltage_command ch (truncated_range v (-10) 10)
  match check_set_errors resp with
  | Except.ok _ => ([Ev.write cmd, Ev.read resp], none)
  | Except.error e => ([Ev.write cmd, Ev.read resp], some e)

/-- The loop of `BaspiLNHRDACII.disable_all` over the already-computed
enabled list (`for ch in self.enabled_channels: …`); `hs` holds the
device's successive replies to the handshake reads.  Each iteration sets
`voltage_setpoint = 0` (write plus handshake read) and then
`enabled = False` (write only, `check_set_errors=False`); a raised
handshake error aborts the remaining iterations. -/
def disable_all_loop : List ℕ → List String → List Ev × Option String
  | [], _ => ([], none)
  | ch :: rest, hs =>
    match set_voltage_events ch 0 (hs.headD "") with
    | (evs, some e) => (evs, some e)
    | (evs, none) =>
      let t := disable_all_loop rest hs.tail
      (evs ++ Ev.write (set_enabled_command ch false) :: t.1, t.2)

/-- `BaspiLNHRDACII.disable_all`: one `"ALL S?"` query (a write plus one
read returning `status`), evaluated once up front, then the per-channel
loop over `enabled_channels status`. -/
def disable_all (status : String) (hs : List String) : List Ev × Option String :=
  (Ev.write "ALL S?" :: Ev.read status :: (disable_all_loop (enabled_channels status) hs).1,
    (disable_all_loop (enabled_channels status) hs).2)

/-- The write lines of a transport trace. -/
def writesOf (t : List Ev) : List String :=
  t.filterMap (fun e => match e with | Ev.write s => some s | Ev.read _ => none)

/-- The sixteen characters a Python `X` format can emit. -/
def upperHexChars : List Char :=
  ['0', '1', '2', '3', '4', '5', '6', '7', '8', '9', 'A', 'B', 'C', 'D', 'E', 'F']

/-- The bulk status response used by the spec's examples and by the
repository's own `test_disable_all_logic`. -/
def exampleStatus : String := "ON;ON;OFF;OFF;OFF;OFF;OFF;OFF;OFF;OFF;OFF;OFF"

/-- A bulk status response with a blank second field. -/
def blankFieldStatus : String := "ON;;OFF;ON;OFF;OFF;OFF;OFF;OFF;OFF;OFF;OFF"

/-! ### Lemmas about the hexadecimal formatting and parsing -/

lemma parseHexAux_append (acc : ℕ) (l₁ l₂ : List Char) :
    parseHexAux acc (l₁ ++ l₂) =
      match parseHexAux acc l₁ with
      | some a => parseHexAux a l₂
      | none => none := by
  induction l₁ generalizing acc with
  | nil => rfl
  | cons c cs ih =>
    simp only [List.cons_append, parseHexAux]
    cases hexCharVal c with
    | some d => exact ih _
    | none => rfl

lemma hexCharVal_hexDigitChar {d : ℕ} (hd : d < 16) :
    hexCharVal (hexDigitChar d) = some d := by
  interval_cases d <;> decide

lemma parseHexAux_natToHexAux (fuel : ℕ) :
    ∀ n acc, n ≤ fuel →
      parseHexAux acc (natToHexAux fuel n) =
        some (acc * 16 ^ (natToHexAux fuel n).length + n) := by
  induction fuel with
  | zero =>
    intro n acc hn
    interval_cases n
    simp [natToHexAux, parseHexAux]
  | succ f ih =>
    intro n acc hn
    by_cases h0 : n = 0
    · subst h0; simp [natToHexAux, parseHexAux]
    · have hrec : n / 16 ≤ f := by
        have := Nat.div_lt_self (Nat.pos_of_ne_zero h0) (by omega : 1 < 16)
        omega
      have hd : n % 16 < 16 := Nat.mod_lt _ (by omega)
      simp only [natToHexAux, if_neg h0]
      rw [parseHexAux_append, ih _ acc hrec]
      simp only [parseHexAux, hexCharVal_hexDigitChar hd, List.length_append,
        List.length_cons, List.length_nil]
      generalize (natToHexAux f (n / 16)).length = L
      rw [pow_succ, ← mul_assoc]
      generalize acc * 16 ^ L = X
      exact congrArg some (by omega)

lemma parseHexAux_natHexDigits (n : ℕ) :
    parseHexAux 0 (natHexDigits n) = some n := by
  by_cases h0 : n = 0
  · subst h0; decide
  · unfold natHexDigits
    rw [if_neg h0]
    simpa using parseHexAux_natToHexAux n n 0 le_rfl

lemma parseHexAux_replicate_zero (k : ℕ) (l : List Char) :
    parseHexAux 0 (List.replicate k '0' ++ l) = parseHexAux 0 l := by
  induction k with
  | zero => rfl
  | succ m ih =>
    have h0 : hexCharVal '0' = some 0 := rfl
    simpa [List.replicate_succ, parseHexAux, h0] using ih

lemma natHexDigits_ne_nil (n : ℕ) : natHexDigits n ≠ [] := by
  by_cases h0 : n = 0
  · subst h0; decide
  · unfold natHexDigits
    rw [if_neg h0]
    obtain ⟨f, rfl⟩ : ∃ f, n = f + 1 := ⟨n - 1, by omega⟩
    simp [natToHexAux, h0]

lemma parseHex_pyHex6 (n : ℕ) : parseHex (pyHex6 n) = some n := by
  unfold parseHex pyHex6
  rw [if_neg (by simp [natHexDigits_ne_nil n])]
  rw [show (String.mk (List.replicate (6 - (natHexDigits n).length) '0' ++
      natHexDigits n)).data =
      List.replicate (6 - (natHexDigits n).length) '0' ++ natHexDigits n from rfl]
  rw [parseHexAux_replicate_zero, parseHexAux_natHexDigits]

lemma natToHexAux_length_le (fuel : ℕ) :
    ∀ n k, n ≤ fuel → n < 16 ^ k → (natToHexAux fuel n).length ≤ k := by
  induction fuel with
  | zero =>
    intro n k hn _
    interval_cases n
    simp [natToHexAux]
  | succ f ih =>
    intro n k hn hk
    by_cases h0 : n = 0
    · subst h0; simp [natToHexAux]
    · have hk1 : k ≠ 0 := by
        intro h; subst h; simp at hk; omega
      obtain ⟨k', rfl⟩ : ∃ k', k = k' + 1 := ⟨k - 1, by omega⟩
      have hdiv : n / 16 < 16 ^ k' := by
        rw [Nat.div_lt_iff_lt_mul (by omega : 0 < 16)]
        calc n < 16 ^ (k' + 1) := hk
        _ = 16 ^ k' * 16 := pow_succ _ _
      have hrec : n / 16 ≤ f := by
        have := Nat.div_lt_self (Nat.pos_of_ne_zero h0) (by omega : 1 < 16)
        omega
      simp only [natToHexAux, if_neg h0, List.length_append, List.length_cons,
        List.length_nil]
      have := ih (n / 16) k' hrec hdiv
      omega

lemma natHexDigits_length_le {n k : ℕ} (hk : 0 < k) (h : n < 16 ^ k) :
    (natHexDigits n).length ≤ k := by
  by_cases h0 : n = 0
  · subst h0; simpa [natHexDigits] using hk
  · unfold natHexDigits
    rw [if_neg h0]
    exact natToHexAux_length_le n n k le_rfl h

lemma pyHex6_length {n : ℕ} (hn : n < 16 ^ 6) : (pyHex6 n).data.length = 6 := by
  have h1 : (natHexDigits n).length ≤ 6 := natHexDigits_length_le (by omega) hn
  show (List.replicate (6 - (natHexDigits n).length) '0' ++ natHexDigits n).length = 6
  rw [List.length_append, List.length_replicate]
  omega

lemma hexDigitChar_mem {d : ℕ} (hd : d < 16) : hexDigitChar d ∈ upperHexChars := by
  interval_cases d <;> decide

lemma natToHexAux_chars (fuel : ℕ) :
    ∀ n, ∀ c ∈ natToHexAux fuel n, c ∈ upperHexChars := by
  induction fuel with
  | zero => intro n c hc; simp [natToHexAux] at hc
  | succ f ih =>
    intro n c hc
    by_cases h0 : n = 0
    · subst h0; simp [natToHexAux] at hc
    · simp only [natToHexAux, if_neg h0, List.mem_append, List.mem_singleton] at hc
      rcases hc with hc | hc
      · exact ih _ c hc
      · subst hc; exact hexDigitChar_mem (Nat.mod_lt _ (by omega))

lemma pyHex6_chars (n : ℕ) : ∀ c ∈ (pyHex6 n).data, c ∈ upperHexChars := by
  intro c hc
  have hc2 : c ∈ List.replicate (6 - (natHexDigits n).length) '0' ++ natHexDigits n := hc
  rw [List.mem_append] at hc2
  rcases hc2 with hc2 | hc2
  · rw [List.eq_of_mem_replicate hc2]; decide
  · by_cases h0 : n = 0
    · subst h0
      rw [show natHexDigits 0 = ['0'] from rfl, List.mem_singleton] at hc2
      subst hc2; decide
    · rw [natHexDigits, if_neg h0] at hc2
      exact natToHexAux_chars n n c hc2

/-! ### Lemmas about `pyInt` (Python `int()` truncation) and the codec -/

lemma pyInt_bounds {q : ℚ} (hq : 0 ≤ q) :
    (pyInt q : ℚ) ≤ q ∧ q < pyInt q + 1 := by
  have hnum : 0 ≤ q.num := Rat.num_nonneg.mpr hq
  have hden : 0 < q.den := q.den_pos
  obtain ⟨m, hm⟩ : ∃ m : ℕ, q.num = (m : ℤ) := ⟨q.num.toNat, (Int.toNat_of_nonneg hnum).symm⟩
  have hq_eq : q = (m : ℚ) / (q.den : ℚ) := by
    conv_lhs => rw [← Rat.num_div_den q]
    rw [hm]
    norm_num
  have hpy : pyInt q = ((m / q.den : ℕ) : ℤ) := by
    unfold pyInt
    rw [hm]
    rfl
  have hdq : (0 : ℚ) < (q.den : ℚ) := by exact_mod_cast hden
  have hle : ((m / q.den : ℕ) : ℚ) ≤ (m : ℚ) / (q.den : ℚ) := by
    rw [le_div_iff₀ hdq]
    exact_mod_cast Nat.div_mul_le_self m q.den
  have hlt : (m : ℚ) / (q.den : ℚ) < ((m / q.den : ℕ) : ℚ) + 1 := by
    rw [div_lt_iff₀ hdq]
    have h1 := Nat.div_add_mod m q.den
    have h2 := Nat.mod_lt m hden
    have h4 : (m / q.den + 1) * q.den = q.den * (m / q.den) + q.den := by ring
    have h3 : m < (m / q.den + 1) * q.den := by omega
    calc (m : ℚ) < (((m / q.den + 1) * q.den : ℕ) : ℚ) := by exact_mod_cast h3
    _ = (((m / q.den : ℕ) : ℚ) + 1) * (q.den : ℚ) := by push_cast; ring
  constructor
  · rw [hpy]
    calc ((((m / q.den : ℕ) : ℤ) : ℚ)) = ((m / q.den : ℕ) : ℚ) := by norm_cast
    _ ≤ (m : ℚ) / (q.den : ℚ) := hle
    _ = q := hq_eq.symm
  · rw [hpy]
    calc q = (m : ℚ) / (q.den : ℚ) := hq_eq
    _ < ((m / q.den : ℕ) : ℚ) + 1 := hlt
    _ = ((((m / q.den : ℕ) : ℤ) : ℚ)) + 1 := by norm_cast

lemma pyInt_eq {q : ℚ} {n : ℤ} (hq : 0 ≤ q) (h1 : (n : ℚ) ≤ q) (h2 : q < n + 1) :
    pyInt q = n := by
  obtain ⟨hl, hr⟩ := pyInt_bounds hq
  have a1 : (pyInt q : ℚ) < (n : ℚ) + 1 := lt_of_le_of_lt hl h2
  have a2 : (n : ℚ) < (pyInt q : ℚ) + 1 := lt_of_le_of_lt h1 hr
  have b1 : pyInt q < n + 1 := by exact_mod_cast a1
  have b2 : n < pyInt q + 1 := by exact_mod_cast a2
  omega

lemma pyInt_nonneg {q : ℚ} (hq : 0 ≤ q) : 0 ≤ pyInt q := by
  obtain ⟨-, hr⟩ := pyInt_bounds hq
  have h1 : (-1 : ℚ) < (pyInt q : ℚ) := by linarith
  have h2 : (-1 : ℤ) < pyInt q := by exact_mod_cast h1
  omega

lemma scale_pos : (0 : ℚ) < scale := by norm_num [scale]

lemma decode_encode {v : ℚ} (h1 : -10 ≤ v) :
    decode (encode v) = some ((pyInt ((v + 10) * scale) : ℚ) / scale - 10) := by
  have hq : 0 ≤ (v + 10) * scale := mul_nonneg (by linarith) (le_of_lt scale_pos)
  have hnn : 0 ≤ pyInt ((v + 10) * scale) := pyInt_nonneg hq
  unfold encode decode
  rw [parseHex_pyHex6]
  have hcast : (((pyInt ((v + 10) * scale)).toNat : ℕ) : ℚ) =
      ((pyInt ((v + 10) * scale) : ℤ) : ℚ) := by
    exact_mod_cast Int.toNat_of_nonneg hnn
  rw [Option.map_some']
  rw [hcast]

/-- Concrete evaluation: `encode 0 = "7FFFFF"` (truncation of `8388607.4`). -/
lemma encode_zero : encode 0 = "7FFFFF" := by
  have h : pyInt ((0 + 10) * scale) = 8388607 :=
    pyInt_eq (by norm_num [scale]) (by norm_num [scale]) (by norm_num [scale])
  unfold encode
  rw [h]
  decide

/-- Concrete evaluation: `encode 10 = "FFFFFE"` (truncation of `16777214.8`). -/
lemma encode_ten : encode 10 = "FFFFFE" := by
  have h : pyInt ((10 + 10) * scale) = 16777214 :=
    pyInt_eq (by norm_num [scale]) (by norm_num [scale]) (by norm_num [scale])
  unfold encode
  rw [h]
  decide

/-- Concrete evaluation: `encode (-10) = "000000"`. -/
lemma encode_neg_ten : encode (-10) = "000000" := by
  have h : pyInt ((-10 + 10) * scale) = 0 :=
    pyInt_eq (by norm_num [scale]) (by norm_num [scale]) (by norm_num [scale])
  unfold encode
  rw [h]
  decide

/-! ### Concrete hex parses and decodes -/

lemma parseHex_7FFFFF : parseHex "7FFFFF" = some 8388607 := by decide

lemma parseHex_FFFFFF : parseHex "FFFFFF" = some 16777215 := by decide

lemma parseHex_000000 : parseHex "000000" = some 0 := by decide

lemma decode_7FFFFF : decode "7FFFFF" = some ((8388607 : ℚ) / scale - 10) := by
  unfold decode
  rw [parseHex_7FFFFF, Option.map_some']
  norm_num

lemma decode_FFFFFF : decode "FFFFFF" = some ((16777215 : ℚ) / scale - 10) := by
  unfold decode
  rw [parseHex_FFFFFF, Option.map_some']
  norm_num

lemma decode_000000 : decode "000000" = some (-10) := by
  unfold decode
  rw [parseHex_000000, Option.map_some']
  norm_num

/-! ### Lemmas about the validator and the event traces -/

lemma truncated_range_eq_self {v lo hi : ℚ} (h1 : lo ≤ v) (h2 : v ≤ hi) :
    truncated_range v lo hi = v := by
  unfold truncated_range
  rw [if_neg (not_lt.mpr h1), if_neg (not_lt.mpr h2)]

lemma truncated_range_high {v lo hi : ℚ} (h0 : lo ≤ hi) (h : hi < v) :
    truncated_range v lo hi = hi := by
  unfold truncated_range
  rw [if_neg (not_lt.mpr (by linarith)), if_pos h]

lemma truncated_range_low {v lo hi : ℚ} (h : v < lo) :
    truncated_range v lo hi = lo := by
  unfold truncated_range
  rw [if_pos h]

lemma set_voltage_events_ok (ch : ℕ) (v : ℚ) :
    set_voltage_events ch v "0\r\n" =
      ([Ev.write (set_voltage_command ch (truncated_range v (-10) 10)),
        Ev.read "0\r\n"], none) := by
  unfold set_voltage_events
  rw [show check_set_errors "0\r\n" = Except.ok [] from rfl]

lemma set_voltage_events_fst (ch : ℕ) (v : ℚ) (resp : String) :
    (set_voltage_events ch v resp).1 =
      [Ev.write (set_voltage_command ch (truncated_range v (-10) 10)),
        Ev.read resp] := by
  unfold set_voltage_events
  cases check_set_errors resp <;> rfl

lemma set_voltage_events_err (ch : ℕ) (v : ℚ) (resp e : String)
    (h : check_set_errors resp = Except.error e) :
    set_voltage_events ch v resp =
      ([Ev.write (set_voltage_command ch (truncated_range v (-10) 10)),
        Ev.read resp], some e) := by
  unfold set_voltage_events
  rw [h]

lemma disable_all_loop_err (ch : ℕ) (rest : List ℕ) (hs : List String) (e : String)
    (h : check_set_errors (hs.headD "") = Except.error e) :
    disable_all_loop (ch :: rest) hs =
      ([Ev.write (set_voltage_command ch (truncated_range 0 (-10) 10)),
        Ev.read (hs.headD "")], some e) := by
  rw [show disable_all_loop (ch :: rest) hs =
      match set_voltage_events ch 0 (hs.headD "") with
      | (evs, some e) => (evs, some e)
      | (evs, none) =>
        let t := disable_all_loop rest hs.tail
        (evs ++ Ev.write (set_enabled_command ch false) :: t.1, t.2) from rfl]
  rw [set_voltage_events_err ch 0 (hs.headD "") e h]

lemma disable_all_loop_ok (l : List ℕ) :
    disable_all_loop l (List.replicate l.length "0\r\n") =
      (l.flatMap (fun ch =>
        [Ev.write (set_voltage_command ch 0), Ev.read "0\r\n",
         Ev.write (set_enabled_command ch false)]), none) := by
  induction l with
  | nil => rfl
  | cons ch rest ih =>
    rw [List.length_cons, List.replicate_succ]
    rw [show disable_all_loop (ch :: rest)
          ("0\r\n" :: List.replicate rest.length "0\r\n") =
        match set_voltage_events ch 0
            (("0\r\n" :: List.replicate rest.length "0\r\n").headD "") with
        | (evs, some e) => (evs, some e)
        | (evs, none) =>
          let t := disable_all_loop rest
            (("0\r\n" :: List.replicate rest.length "0\r\n").tail)
          (evs ++ Ev.write (set_enabled_command ch false) :: t.1, t.2)
        from rfl]
    rw [List.headD_cons, List.tail_cons, set_voltage_events_ok, ih,
      truncated_range_eq_self (by norm_num : (-10 : ℚ) ≤ 0) (by norm_num : (0 : ℚ) ≤ 10)]
    simp [List.flatMap_cons]

/-! ### Lemmas about the bulk status parsing -/

lemma zip_map_filter_fst {α β γ : Type} (ids : List α) (fields : List β)
    (f : β → γ) (p : γ → Bool) :
    ((ids.zip (fields.map f)).filter (fun q => p q.2)).map (fun q => q.1) =
      ((ids.zip fields).filter (fun q => p (f q.2))).map (fun q => q.1) := by
  rw [List.zip_map_right, List.filter_map, List.map_map]
  simp [Function.comp_def, Prod.map_snd, Prod.map_fst]

lemma enabled_channels_positional {raw : String}
    (hb : ∀ p ∈ splitSemi raw.data, (pyStrip p).isEmpty = false) :
    enabled_channels raw = positional_enabled raw := by
  have hfix : (splitSemi raw.data).filter (fun p => !(pyStrip p).isEmpty) =
      splitSemi raw.data :=
    List.filter_eq_self.mpr (by intro a ha; rw [hb a ha]; rfl)
  unfold enabled_channels positional_enabled status_parts parse_status_fields
  rw [hfix]
  rw [zip_map_filter_fst channel_ids (splitSemi raw.data)
    (fun p => pyStrip p == "ON".data) (fun b => b)]
  rw [zip_map_filter_fst channel_ids (splitSemi raw.data) pyStrip
    (fun l => l == "ON".data)]

lemma parse_status_fields_blank (pre post : List (List Char)) (b : List Char)
    (hb : (pyStrip b).isEmpty = true) :
    parse_status_fields (pre ++ b :: post) = parse_status_fields (pre ++ post) := by
  unfold parse_status_fields
  rw [List.filter_append, List.filter_append, List.filter_cons]
  rw [hb]
  simp

/-! ### Claim theorems -/

/-- C1: the claim says the set-voltage handshake succeeds exactly when the
termination-stripped response equals `"0"`.  The code instead compares the
read line with the literal `"0\r\n"`: the stripped success reply `"0"`
(the very pair used in `test_dac_zero_volts`) raises
`RuntimeError("Channel Error: 0")`, and only a line still carrying
`"\r\n"` — which a termination-stripped read can never produce — is
accepted.  The error does carry the raw response. -/
theorem C1_handshake_rejects_stripped_success :
    check_set_errors "0" = Except.error "Channel Error: 0"
    ∧ check_set_errors "E1" = Except.error "Channel Error: E1"
    ∧ check_set_errors "0\r\n" = Except.ok [] :=
  ⟨rfl, rfl, rfl⟩

/-- C2 (counterexample): `setVoltage(11.0)` does not raise before I/O —
the validator `truncated_range` clamps 11 to 10 and the encoded command
`"1 FFFFFE"` is written to the transport, refuting "no command is ever
sent". -/
theorem C2_counterexample :
    (set_voltage_events 1 11 "0\r\n").1 = [Ev.write "1 FFFFFE", Ev.read "0\r\n"]
    ∧ (set_voltage_events 1 11 "0\r\n").1 ≠ [] := by
  have h : (set_voltage_events 1 11 "0\r\n").1 =
      [Ev.write (set_voltage_command 1 (truncated_range 11 (-10) 10)), Ev.read "0\r\n"] :=
    set_voltage_events_fst 1 11 "0\r\n"
  rw [truncated_range_high (by norm_num) (by norm_num)] at h
  unfold set_voltage_command at h
  rw [encode_ten] at h
  rw [h]
  exact ⟨by decide, by decide⟩

/-- C2 (amended): every `voltage_setpoint` write sends exactly one command,
for the value clamped by `truncated_range` into `[-10, 10]`: an in-range
value is sent unchanged, a value above 10 is sent as 10, a value below -10
is sent as -10; no validation exception exists. -/
theorem C2_amended_clamps (ch : ℕ) (v : ℚ) (resp : String) :
    (set_voltage_events ch v resp).1 =
      [Ev.write (set_voltage_command ch (truncated_range v (-10) 10)), Ev.read resp]
    ∧ (-10 ≤ v → v ≤ 10 → truncated_range v (-10) 10 = v)
    ∧ (10 < v → truncated_range v (-10) 10 = 10)
    ∧ (v < -10 → truncated_range v (-10) 10 = -10) := by
  refine ⟨set_voltage_events_fst ch v resp, ?_, ?_, ?_⟩
  · intro a b
    exact truncated_range_eq_self a b
  · intro a
    exact truncated_range_high (by norm_num) a
  · intro a
    exact truncated_range_low a

theorem C2_amended_clamps_witness :
    ((10 : ℚ) < 11) ∧ truncated_range 11 (-10) 10 = 10 ∧
      (set_voltage_events 1 11 "E1").1 =
        [Ev.write (set_voltage_command 1 (truncated_range 11 (-10) 10)), Ev.read "E1"] :=
  ⟨by norm_num, (C2_amended_clamps 1 11 "E1").2.2.1 (by norm_num),
    (C2_amended_clamps 1 11 "E1").1⟩

/-- C3: the claim (and the repository's own `test_dac_positive_full_scale`,
which expects `"5 FFFFFF"` for 10 V) says `encode 10 = "FFFFFF"`.  The code
truncates `(10 + 10) * 838860.74 = 16777214.8` with `int()`, producing
16777214 = `"FFFFFE"`.  The endpoints 0 V and -10 V do match the claim. -/
theorem C3_encode_reference_points :
    encode 0 = "7FFFFF" ∧ encode (-10) = "000000" ∧
      encode 10 = "FFFFFE" ∧ ("FFFFFE" : String) ≠ "FFFFFF" :=
  ⟨encode_zero, encode_neg_ten, encode_ten, by decide⟩

/-- C4: for every voltage `v ∈ [-10, 10]`, decoding the wire code produced
by encoding `v` yields a voltage within `1.2e-6` V of `v`. -/
theorem C4_roundtrip_bound (v : ℚ) (h1 : -10 ≤ v) (h2 : v ≤ 10) :
    (decode (encode v)).isSome = true ∧
      |(decode (encode v)).getD 0 - v| ≤ 12 / 10 ^ 7 := by
  rw [decode_encode h1]
  refine ⟨rfl, ?_⟩
  rw [Option.getD_some]
  set q := (v + 10) * scale with hqdef
  have hq : 0 ≤ q := mul_nonneg (by linarith) (le_of_lt scale_pos)
  obtain ⟨hl, hr⟩ := pyInt_bounds hq
  have hs := scale_pos
  have hv : q / scale = v + 10 := by
    rw [hqdef]
    field_simp
  have hdiff : (pyInt q : ℚ) / scale - 10 - v = ((pyInt q : ℚ) - q) / scale := by
    rw [sub_div, hv]
    ring
  rw [abs_le, hdiff]
  constructor
  · rw [le_div_iff₀ hs]
    have key : -(12 / 10 ^ 7 : ℚ) * scale ≤ -1 := by norm_num [scale]
    linarith
  · rw [div_le_iff₀ hs]
    have key : (0 : ℚ) ≤ 12 / 10 ^ 7 * scale := by norm_num [scale]
    linarith

theorem C4_roundtrip_bound_witness :
    (-10 : ℚ) ≤ 0 ∧ (0 : ℚ) ≤ 10 ∧
      ((decode (encode 0)).isSome = true ∧
        |(decode (encode 0)).getD 0 - 0| ≤ 12 / 10 ^ 7) :=
  ⟨by norm_num, by norm_num, C4_roundtrip_bound 0 (by norm_num) (by norm_num)⟩

/-- C5: the live decoder reads the hex string case-insensitively as an
unsigned integer (6 digits keep it below `2^24`) and returns
`value / 838860.74 - 10`: `"000000"` decodes to exactly -10,
`"7FFFFF"` to within `1e-6` of 0, `"FFFFFF"` to within `1e-6` of 10
(and in particular to a positive value, unsigned interpretation), and
lowercase input decodes identically. -/
theorem C5_decode_values :
    decode "000000" = some (-10)
    ∧ (decode "7FFFFF").isSome = true
    ∧ |(decode "7FFFFF").getD 0 - 0| ≤ 1 / 10 ^ 6
    ∧ (decode "FFFFFF").isSome = true
    ∧ |(decode "FFFFFF").getD 0 - 10| ≤ 1 / 10 ^ 6
    ∧ decode "ffffff" = decode "FFFFFF"
    ∧ decode "7fffff" = decode "7FFFFF"
    ∧ parseHex "FFFFFF" = some 16777215 ∧ (16777215 : ℕ) < 2 ^ 24 := by
  refine ⟨decode_000000, ?_, ?_, ?_, ?_, ?_, ?_, parseHex_FFFFFF, by norm_num⟩
  · rw [decode_7FFFFF]
    rfl
  · rw [decode_7FFFFF, Option.getD_some, abs_le]
    constructor <;> norm_num [scale]
  · rw [decode_FFFFFF]
    rfl
  · rw [decode_FFFFFF, Option.getD_some, abs_le]
    constructor <;> norm_num [scale]
  · unfold decode
    rw [show parseHex "ffffff" = some 16777215 from by decide, parseHex_FFFFFF]
  · unfold decode
    rw [show parseHex "7fffff" = some 8388607 from by decide, parseHex_7FFFFF]

/-- C6: the claim says `disable_all` completes, for each enabled channel in
ascending order, the 0 V setpoint write with its `"0"` handshake and then
the disable write, before touching the next channel.  The loop is indeed
written in that order over the once-computed enabled list, but the
handshake comparison accepts only the literal `"0\r\n"` (see C1), which a
termination-stripped read never delivers: with channels 1 and 2 enabled and
the device answering the claimed success reply `"0"`, the run raises
`RuntimeError("Channel Error: 0")` at channel 1's handshake.  The whole
trace is one `"ALL S?"` query, the channel-1 voltage command and the failed
handshake read — channel 1 is never disabled and channel 2 is never
touched, so the claimed per-channel sequence never occurs. -/
theorem C6_disable_all_aborts :
    disable_all exampleStatus ["0", "0"] =
      ([Ev.write "ALL S?", Ev.read exampleStatus,
        Ev.write "1 7FFFFF", Ev.read "0"], some "Channel Error: 0")
    ∧ writesOf (disable_all exampleStatus ["0", "0"]).1 = ["ALL S?", "1 7FFFFF"]
    ∧ Ev.write "1 OFF" ∉ (disable_all exampleStatus ["0", "0"]).1
    ∧ Ev.write "2 7FFFFF" ∉ (disable_all exampleStatus ["0", "0"]).1
    ∧ Ev.write "2 OFF" ∉ (disable_all exampleStatus ["0", "0"]).1 := by
  have h1 : enabled_channels exampleStatus = [1, 2] := by decide
  have habort : disable_all exampleStatus ["0", "0"] =
      ([Ev.write "ALL S?", Ev.read exampleStatus,
        Ev.write "1 7FFFFF", Ev.read "0"], some "Channel Error: 0") := by
    unfold disable_all
    rw [h1]
    rw [disable_all_loop_err 1 [2] ["0", "0"] "Channel Error: 0" rfl]
    rw [truncated_range_eq_self (by norm_num : (-10 : ℚ) ≤ 0) (by norm_num : (0 : ℚ) ≤ 10)]
    unfold set_voltage_command
    rw [encode_zero]
    decide
  refine ⟨habort, ?_, ?_, ?_, ?_⟩ <;> rw [habort] <;> decide

/-- C7: `enabled_channels` parses the `"ALL S?"` response by splitting on
`";"` and trimming each field; on the example response it returns exactly
channels `[1, 2]` in order, for every response whose fields are all
nonblank it agrees with the positional 1:1 pairing against channels 1..12,
and a response with fewer fields silently truncates via pairwise zip
(two fields pair with channels 1 and 2 only). -/
theorem C7_enabled_channels :
    enabled_channels exampleStatus = [1, 2]
    ∧ (∀ raw : String, (∀ p ∈ splitSemi raw.data, (pyStrip p).isEmpty = false) →
        enabled_channels raw = positional_enabled raw)
    ∧ enabled_channels "OFF;ON" = [2]
    ∧ enabled_channels "ON;ON" = [1, 2] := by
  refine ⟨by decide, ?_, by decide, by decide⟩
  intro raw hb
  exact enabled_channels_positional hb

theorem C7_enabled_channels_witness :
    (∀ p ∈ splitSemi exampleStatus.data, (pyStrip p).isEmpty = false) ∧
      enabled_channels exampleStatus = positional_enabled exampleStatus :=
  ⟨by decide, C7_enabled_channels.2.1 exampleStatus (by decide)⟩

/-- C8: for every `v ∈ [-10, 10]` the wire code is exactly 6 characters,
all uppercase hex digits, and parses back to a value `≤ 2^24 - 1`; and the
validator clamps every requested value into `[-10, 10]`, so the invariant
covers every set-voltage command ever sent. -/
theorem C8_wirecode_format (v : ℚ) (h1 : -10 ≤ v) (h2 : v ≤ 10) :
    (encode v).data.length = 6
    ∧ (∀ c ∈ (encode v).data, c ∈ upperHexChars)
    ∧ (∃ n : ℕ, parseHex (encode v) = some n ∧ n ≤ 2 ^ 24 - 1)
    ∧ (∀ w : ℚ, -10 ≤ truncated_range w (-10) 10 ∧ truncated_range w (-10) 10 ≤ 10) := by
  have hq : 0 ≤ (v + 10) * scale := mul_nonneg (by linarith) (le_of_lt scale_pos)
  have h20 : (20 : ℚ) * scale < 16777215 := by norm_num [scale]
  have hmono : (v + 10) * scale ≤ 20 * scale :=
    mul_le_mul_of_nonneg_right (by linarith) (le_of_lt scale_pos)
  have hubQ : (pyInt ((v + 10) * scale) : ℚ) < 16777215 :=
    lt_of_le_of_lt (pyInt_bounds hq).1 (by linarith)
  have hub : pyInt ((v + 10) * scale) < 16777215 := by exact_mod_cast hubQ
  have hnn : 0 ≤ pyInt ((v + 10) * scale) := pyInt_nonneg hq
  have hm : (pyInt ((v + 10) * scale)).toNat < 16 ^ 6 := by
    rw [show (16 : ℕ) ^ 6 = 16777216 from rfl]
    omega
  refine ⟨pyHex6_length hm, pyHex6_chars _, ⟨(pyInt ((v + 10) * scale)).toNat,
    parseHex_pyHex6 _, ?_⟩, ?_⟩
  · rw [show (2 : ℕ) ^ 24 - 1 = 16777215 from rfl]
    omega
  · intro w
    unfold truncated_range
    split_ifs <;> constructor <;> linarith

theorem C8_wirecode_format_witness :
    (-10 : ℚ) ≤ 0 ∧ (0 : ℚ) ≤ 10 ∧
      ((encode 0).data.length = 6
        ∧ (∀ c ∈ (encode 0).data, c ∈ upperHexChars)
        ∧ (∃ n : ℕ, parseHex (encode 0) = some n ∧ n ≤ 2 ^ 24 - 1)
        ∧ (∀ w : ℚ, -10 ≤ truncated_range w (-10) 10 ∧ truncated_range w (-10) 10 ≤ 10)) :=
  ⟨by norm_num, by norm_num, C8_wirecode_format 0 (by norm_num) (by norm_num)⟩

/-- C9: the unused decoder `_from_24bit_hex` maps `"FFFFFF"` through signed
two's-complement (`16777215 - 16777216 = -1`) and the `2^23 - 1` scale to
`-10/8388607 ≈ -1.19e-6`, while the live decoder maps it to about `+10`;
the two decoders are not equivalent on 6-hex-digit codes. -/
theorem C9_decoders_differ :
    from_24bit_hex "FFFFFF" = some ((-1 : ℚ) / 8388607 * 10)
    ∧ decode "FFFFFF" = some ((16777215 : ℚ) / scale - 10)
    ∧ (-1 : ℚ) / 8388607 * 10 ≠ (16777215 : ℚ) / scale - 10
    ∧ from_24bit_hex "FFFFFF" ≠ decode "FFFFFF" := by
  have h1 : from_24bit_hex "FFFFFF" = some ((-1 : ℚ) / 8388607 * 10) := by
    unfold from_24bit_hex
    rw [parseHex_FFFFFF, Option.map_some', if_pos (by norm_num : (0x800000 : ℕ) ≤ 16777215)]
    norm_num
  have h3 : (-1 : ℚ) / 8388607 * 10 ≠ (16777215 : ℚ) / scale - 10 := by
    norm_num [scale]
  refine ⟨h1, decode_FFFFFF, h3, ?_⟩
  rw [h1, decode_FFFFFF]
  intro h
  exact h3 (Option.some.inj h)

/-- C10: the list comprehension guard `if p.strip()` discards every blank
field before pairing with the channels, so inserting a blank field shifts
all later flags one channel down instead of keeping positional alignment
(enabled set `[1, 3]` instead of the positional `[1, 4]` on the example);
deleting a blank field never changes the parse. -/
theorem C10_blank_fields_shift :
    (∀ (pre post : List (List Char)) (b : List Char), (pyStrip b).isEmpty = true →
        parse_status_fields (pre ++ b :: post) = parse_status_fields (pre ++ post))
    ∧ enabled_channels blankFieldStatus = [1, 3]
    ∧ positional_enabled blankFieldStatus = [1, 4] :=
  ⟨fun pre post b hb => parse_status_fields_blank pre post b hb, by decide, by decide⟩

theorem C10_blank_fields_shift_witness :
    (pyStrip []).isEmpty = true ∧
      parse_status_fields (["ON".data] ++ ([] : List Char) :: ["OFF".data]) =
        parse_status_fields (["ON".data] ++ ["OFF".data]) :=
  ⟨by decide, C10_blank_fields_shift.1 ["ON".data] ["OFF".data] [] (by decide)⟩

end SP1060
